import Mathlib

/-!
Verification of the ErgoScan measurement refinement pipeline
(`src/normalization/data_normalizer.py`).

The pipeline operates on scalar measurement points (rationals model the
exact value of the Python floats); the quality score and the per-type
statistics need a square root and are modelled over the reals.  File I/O
(the calibration JSON file) is modelled by passing the parsed calibration
table, or `none` for a missing/empty file, to the constructor.
-/

namespace ErgoScan

/-- One scalar observation, mirroring the `MeasurementPoint` dataclass. -/
structure MeasurementPoint where
  timestamp : ℚ
  measurement_type : String
  value : ℚ
  confidence : ℚ
  depth : ℚ
  frame_id : ℤ
  landmarks_quality : ℚ
deriving DecidableEq

/-- The consolidated output, mirroring the `BodyProfile` dataclass.
`calibration_quality` is the quality score, a real (see
`calculate_quality_score`). -/
structure BodyProfile where
  user_id : String
  height : ℚ
  shoulder_width : ℚ
  torso_length : ℚ
  arm_length : ℚ
  leg_length : ℚ
  hip_width : ℚ
  scale_factor : ℚ
  calibration_quality : ℝ
  measurement_count : ℕ
  timestamp : ℚ

/-- The parsed contents of a non-empty calibration JSON file: each key is
optional, matching the `dict.get(key, default)` accesses in the source. -/
structure CalibrationData where
  reference_depth : Option ℚ
  scaling_factors : List (String × ℚ)
  global_scale_factor : Option ℚ
deriving DecidableEq

/-- The state built by `DataNormalizer.__init__`: the configuration values
plus the loaded calibration table.  `calibration_data = none` models the
empty dict returned by `load_calibration_data` when the file is missing or
unreadable (`if not self.calibration_data` in the source tests dict
emptiness). -/
structure DataNormalizer where
  calibration_data : Option CalibrationData
  outlier_threshold : ℚ
  min_confidence : ℚ
  min_samples : ℕ
deriving DecidableEq

/-- `DataNormalizer.__init__`: stores its arguments and the (already
parsed) calibration table.  The source constructor performs no argument
validation and contains no raise path (`load_calibration_data` catches
every exception and returns an empty dict), so the result is always
`Except.ok`; the `Except` return type records where a raise would
surface if the source had one. -/
def mkDataNormalizer (calibration_data : Option CalibrationData)
    (outlier_threshold : ℚ) (min_confidence : ℚ) (min_samples : ℕ) :
    Except String DataNormalizer :=
  .ok ⟨calibration_data, outlier_threshold, min_confidence, min_samples⟩

/-- Population mean of a list of rationals, `np.mean` (0 on the empty
list, which the source never hits). -/
def qmean (vs : List ℚ) : ℚ := vs.sum / vs.length

/-- Population variance (`ddof = 0`), the square of `np.std` and the
denominator scale of `scipy.stats.zscore`. -/
def qvariance (vs : List ℚ) : ℚ :=
  ((vs.map (fun v => (v - qmean vs) ^ 2)).sum) / vs.length

/-- The retention test of `remove_outliers` for one value `x` of a group
with values `vs`: the source computes `z = |x - mean| / std` with
`std = sqrt variance` and keeps `x` when `z <= t`.  In exact arithmetic,
for `std ≠ 0` that comparison is `0 ≤ t ∧ (x - mean)^2 ≤ t^2 * variance`
(squaring both sides of `|x - mean| ≤ t * std`), which keeps the test
inside ℚ.  When the variance is 0 the source divides 0 by 0, `zscore`
yields NaN, and `NaN <= t` is false, so no point of the group is kept. -/
def zscore_keep (t : ℚ) (vs : List ℚ) (x : ℚ) : Bool :=
  if qvariance vs = 0 then false
  else decide (0 ≤ t ∧ (x - qmean vs) ^ 2 ≤ t ^ 2 * qvariance vs)

/-- The distinct `measurement_type` values of `ms` in order of first
occurrence: the key order of the `grouped` dict that every grouping loop
in the source builds by insertion. -/
def keyList : List MeasurementPoint → List String
  | [] => []
  | m :: rest =>
    m.measurement_type :: (keyList rest).filter (fun t => t != m.measurement_type)

/-- The group of one measurement type: the points of `ms` of type `t`,
in input order — the value the source's `grouped` dict holds at key
`t`. -/
def typeGroup (ms : List MeasurementPoint) (t : String) : List MeasurementPoint :=
  ms.filter (fun m => m.measurement_type == t)

/-- The `grouped` dict of the source's grouping loops: for each type (in
insertion order) the sub-list of points of that type, in input order. -/
def groupByType (ms : List MeasurementPoint) : List (String × List MeasurementPoint) :=
  (keyList ms).map (fun t => (t, typeGroup ms t))

/-- `DataNormalizer.filter_by_confidence`. -/
def filter_by_confidence (cfg : DataNormalizer) (measurements : List MeasurementPoint) :
    List MeasurementPoint :=
  measurements.filter (fun m => decide (cfg.min_confidence ≤ m.confidence))

/-- `DataNormalizer.remove_outliers`: below `min_samples` total points the
input passes through; otherwise group by type, pass groups of fewer than
3 points through, and filter larger groups by the Z-score test. -/
def remove_outliers (cfg : DataNormalizer) (measurements : List MeasurementPoint) :
    List MeasurementPoint :=
  if measurements.length < cfg.min_samples then measurements
  else
    (groupByType measurements).flatMap (fun g =>
      if g.2.length < 3 then g.2
      else g.2.filter (fun m =>
        zscore_keep cfg.outlier_threshold (g.2.map MeasurementPoint.value) m.value))

/-- Placeholder point for total list indexing; every `getD` using it is
guarded by an index bound in the source. -/
def dummyPoint : MeasurementPoint := ⟨0, "", 0, 0, 0, 0, 0⟩

/-- The per-group body of `apply_temporal_smoothing`: sort the group by
timestamp (Python's sort is stable, as is `mergeSort`), then emit, for
each index, a new point whose value is the confidence-and-quality
weighted average over a centred window (`np.average`, falling back to
`np.mean` when the weights sum to 0), retaining the point's own other
fields. -/
def smoothGroup (t : String) (g : List MeasurementPoint) : List MeasurementPoint :=
  let sorted := g.mergeSort (fun a b => decide (a.timestamp ≤ b.timestamp))
  let window_size := min 5 sorted.length
  (List.range sorted.length).map (fun i =>
    let start_idx := i - window_size / 2
    let end_idx := min sorted.length (i + window_size / 2 + 1)
    let window := (sorted.take end_idx).drop start_idx
    let weights := window.map (fun m => m.confidence * m.landmarks_quality)
    let values := window.map MeasurementPoint.value
    let smoothed_value :=
      if 0 < weights.sum then
        ((window.map (fun m => m.confidence * m.landmarks_quality * m.value)).sum) / weights.sum
      else qmean values
    let p := sorted.getD i dummyPoint
    { timestamp := p.timestamp
      measurement_type := t
      value := smoothed_value
      confidence := p.confidence
      depth := p.depth
      frame_id := p.frame_id
      landmarks_quality := p.landmarks_quality })

/-- `DataNormalizer.apply_temporal_smoothing`: fewer than 3 points pass
through; otherwise group by type, pass groups of fewer than 3 points
through, and smooth larger groups.  `start_idx` uses ℕ subtraction,
which equals the source's `max(0, i - window_size // 2)`. -/
def apply_temporal_smoothing (measurements : List MeasurementPoint) :
    List MeasurementPoint :=
  if measurements.length < 3 then measurements
  else
    (groupByType measurements).flatMap (fun g =>
      if g.2.length < 3 then g.2 else smoothGroup g.1 g.2)

/-- `DataNormalizer.apply_depth_correction`: with no calibration table the
input passes through (with a printed warning); otherwise each value is
scaled by `reference_depth / depth` (`reference_depth` defaulting
to 2.0). -/
def apply_depth_correction (cfg : DataNormalizer) (measurements : List MeasurementPoint) :
    List MeasurementPoint :=
  match cfg.calibration_data with
  | none => measurements
  | some cal =>
    measurements.map (fun m =>
      { m with value := m.value * ((cal.reference_depth.getD 2) / m.depth) })

/-- `DataNormalizer.apply_calibration_scaling`: with no calibration table
the input passes through; otherwise each value is multiplied by the
per-type scaling factor (defaulting to 1.0). -/
def apply_calibration_scaling (cfg : DataNormalizer) (measurements : List MeasurementPoint) :
    List MeasurementPoint :=
  match cfg.calibration_data with
  | none => measurements
  | some cal =>
    measurements.map (fun m =>
      { m with value := m.value * ((cal.scaling_factors.lookup m.measurement_type).getD 1) })

/-- The per-group weighted average of `create_body_profile`:
`np.average(values, weights = confidence * landmarks_quality)`, falling
back to `np.mean` when the weights sum to 0. -/
def weightedFinalValue (g : List MeasurementPoint) : ℚ :=
  let weights := g.map (fun m => m.confidence * m.landmarks_quality)
  if 0 < weights.sum then
    ((g.map (fun m => m.confidence * m.landmarks_quality * m.value)).sum) / weights.sum
  else qmean (g.map MeasurementPoint.value)

/-- One entry of the statistics dict of
`calculate_measurement_statistics`; `std` is a real square root, `cv` is
`std / mean`. -/
structure MeasurementStats where
  mean : ℚ
  std : ℝ
  count : ℕ
  cv : ℝ

/-- `DataNormalizer.calculate_measurement_statistics`: for each type (in
insertion order) the population mean, standard deviation, count and
coefficient of variation of the group's values (`cv = 0` when the mean
is not positive).  The source's `if values` else-branch of zeros is kept
although groups are never empty. -/
noncomputable def calculate_measurement_statistics (measurements : List MeasurementPoint) :
    List (String × MeasurementStats) :=
  (keyList measurements).map (fun t =>
    let values := (measurements.filter (fun m => m.measurement_type == t)).map
      MeasurementPoint.value
    if values.isEmpty then (t, ⟨0, 0, 0, 0⟩)
    else
      let μ := qmean values
      let σ : ℝ := Real.sqrt ((qvariance values : ℚ) : ℝ)
      (t, { mean := μ, std := σ, count := values.length
            cv := if 0 < μ then σ / (μ : ℝ) else 0 }))

/-- Renders a rational with one decimal digit, modelling the `:.1f`
format used in validation issue strings (for the nonnegative means the
source formats, possible float round-half-to-even differences in the
last digit aside). -/
def formatTenths (q : ℚ) : String :=
  let n : ℤ := Int.floor (q * 10 + 1 / 2)
  toString (n / 10) ++ "." ++ toString ((n % 10).natAbs)

/-- The `reasonable_ranges` table of `validate_measurements`, in source
order (plausible centimetre ranges per measurement type). -/
def reasonable_ranges : List (String × (ℚ × ℚ)) :=
  [("height", (140, 220)), ("shoulder_width", (30, 70)), ("torso_length", (40, 80)),
   ("arm_length", (50, 90)), ("leg_length", (60, 120)), ("hip_width", (25, 60))]

/-- `DataNormalizer.validate_measurements`: flag each type whose group
mean falls outside its plausible range, then flag insufficient data when
the total count is below `min_samples`; valid iff no issue. -/
noncomputable def validate_measurements (cfg : DataNormalizer)
    (measurements : List MeasurementPoint) : Bool × List String :=
  let stats := calculate_measurement_statistics measurements
  let range_issues := reasonable_ranges.filterMap (fun r =>
    match stats.lookup r.1 with
    | none => none
    | some st =>
      if st.mean < r.2.1 ∨ r.2.2 < st.mean then
        some (r.1 ++ " out of reasonable range: " ++ formatTenths st.mean ++ "cm")
      else none)
  let total := (stats.map (fun s => s.2.count)).sum
  let issues := range_issues ++
    (if total < cfg.min_samples then
      ["Insufficient data: " ++ toString total ++ " measurements"]
    else [])
  (issues.length == 0, issues)

/-- The `expected_measurements` list of `calculate_quality_score`. -/
def expected_measurements : List String :=
  ["height", "shoulder_width", "torso_length", "arm_length", "leg_length", "hip_width"]

/-- `DataNormalizer.calculate_quality_score`: 0 on empty input, else the
`[0.2, 0.3, 0.3, 0.2]`-weighted average of the sample, consistency,
detection and completeness sub-scores, clamped to [0, 10].  The distinct
type count `len(set(...))` is the length of `keyList`; the unused
`body_profile` parameter of the source is dropped. -/
noncomputable def calculate_quality_score (measurements : List MeasurementPoint) : ℝ :=
  if measurements.isEmpty then 0
  else
    let sample_score : ℝ := min 10 ((measurements.length : ℝ) / 50 * 10)
    let stats := calculate_measurement_statistics measurements
    let consistency_scores : List ℝ := stats.filterMap (fun s =>
      if 1 < s.2.count ∧ 0 < s.2.mean then some (max 0 (10 - s.2.cv * 100)) else none)
    let avg_consistency : ℝ :=
      if consistency_scores.isEmpty then 5
      else consistency_scores.sum / consistency_scores.length
    let avg_confidence : ℚ := qmean (measurements.map MeasurementPoint.confidence)
    let avg_landmarks_quality : ℚ := qmean (measurements.map MeasurementPoint.landmarks_quality)
    let detection_score : ℝ := (((avg_confidence + avg_landmarks_quality) : ℚ) : ℝ) / 2 * 10
    let completeness_score : ℝ :=
      ((keyList measurements).length : ℝ) / (expected_measurements.length : ℝ) * 10
    let final_score : ℝ :=
      (2 / 10 * sample_score + 3 / 10 * avg_consistency + 3 / 10 * detection_score
          + 2 / 10 * completeness_score)
        / (2 / 10 + 3 / 10 + 3 / 10 + 2 / 10)
    min 10 (max 0 final_score)

/-- `DataNormalizer.create_body_profile`: group the points by type, take
the confidence-weighted average of each group, default missing types to
0.0, take the global scale factor from the calibration table (1.0 when
absent) and the quality score of the inputs; `now` models
`time.time()`. -/
noncomputable def create_body_profile (cfg : DataNormalizer) (now : ℚ)
    (measurements : List MeasurementPoint) (user_id : String) : BodyProfile :=
  let final_measurements := (groupByType measurements).map (fun g => (g.1, weightedFinalValue g.2))
  let finalOf := fun t => (final_measurements.lookup t).getD 0
  { user_id := user_id
    height := finalOf "height"
    shoulder_width := finalOf "shoulder_width"
    torso_length := finalOf "torso_length"
    arm_length := finalOf "arm_length"
    leg_length := finalOf "leg_length"
    hip_width := finalOf "hip_width"
    scale_factor := (cfg.calibration_data.bind CalibrationData.global_scale_factor).getD 1
    calibration_quality := calculate_quality_score measurements
    measurement_count := measurements.length
    timestamp := now }

/-- The processing report returned by `process_measurements`. -/
structure ProcessingReport where
  initial_count : ℕ
  final_count : ℕ
  processing_steps : List String
  quality_score : ℝ
  issues : List String

/-- `DataNormalizer.process_measurements`: the fixed pipeline of
confidence filter, outlier removal, temporal smoothing, depth
correction, calibration scaling, profile build, validation and quality
score, with the report lines the source appends. -/
noncomputable def process_measurements (cfg : DataNormalizer) (now : ℚ)
    (measurements : List MeasurementPoint) (user_id : String) :
    BodyProfile × ProcessingReport :=
  let initial_count := measurements.length
  let filtered_measurements := filter_by_confidence cfg measurements
  let step1 := "Step 1 - Confidence filter: " ++ toString filtered_measurements.length
    ++ "/" ++ toString initial_count ++ " retained"
  let cleaned_measurements := remove_outliers cfg filtered_measurements
  let step2 := "Step 2 - Outlier removal: " ++ toString cleaned_measurements.length
    ++ "/" ++ toString initial_count ++ " retained"
  let smoothed_measurements := apply_temporal_smoothing cleaned_measurements
  let depth_corrected := apply_depth_correction cfg smoothed_measurements
  let scaled_measurements := apply_calibration_scaling cfg depth_corrected
  let body_profile := create_body_profile cfg now scaled_measurements user_id
  let validation := validate_measurements cfg scaled_measurements
  let step6 :=
    if validation.1 then "Step 6 - Validation: PASSED" else "Step 6 - Validation: FAILED"
  let quality_score := calculate_quality_score scaled_measurements
  (body_profile,
   { initial_count := initial_count
     final_count := scaled_measurements.length
     processing_steps := [step1, step2, "Step 3 - Temporal smoothing applied",
       "Step 4 - Depth correction applied", "Step 5 - Calibration scaling applied", step6]
     quality_score := quality_score
     issues := validation.2 })

/-- The `reference_points` dict (body part name to landmark index) of
`normalize_landmarks`.  Indices are the nonnegative positions of the
fixed 33-point pose schema. -/
structure RefPoints where
  entries : List (String × ℕ)
deriving DecidableEq

/-- `reference_points.get(k, d)`. -/
def RefPoints.get (rp : RefPoints) (k : String) (d : ℕ) : ℕ :=
  (rp.entries.lookup k).getD d

/-- `k in reference_points`. -/
def RefPoints.hasKey (rp : RefPoints) (k : String) : Bool :=
  (rp.entries.lookup k).isSome

/-- `reference_points[k]`; only evaluated by the source after a
membership test, so the fallback value is never observed. -/
def RefPoints.getKey (rp : RefPoints) (k : String) : ℕ :=
  (rp.entries.lookup k).getD 0

/-- The default MediaPipe pose landmark indices installed when
`reference_points is None`. -/
def defaultReferencePoints : RefPoints :=
  ⟨[("nose", 0),
    ("left_shoulder", 11), ("right_shoulder", 12),
    ("left_hip", 23), ("right_hip", 24),
    ("left_knee", 25), ("right_knee", 26),
    ("left_ankle", 27), ("right_ankle", 28)]⟩

/-- `np.arctan2 y x`, the angle of the vector `(x, y)`: the argument of
the complex number `x + y*I` (both lie in `(-π, π]` with the same sign
conventions, and both are 0 at the origin). -/
noncomputable def atan2 (y x : ℝ) : ℝ := Complex.arg ⟨x, y⟩

/-- Centering step of `normalize_landmarks`: resolve the center point
(named point if the name is truthy and present, chest or hip midpoints
with centroid fallback, else the centroid of all points).  An empty
string is falsy in Python, hence the `s != ""` conjunct. -/
noncomputable def centerOf (coords : List (ℝ × ℝ)) (rp : RefPoints)
    (center_point : Option String) : ℝ × ℝ :=
  let n := coords.length
  let centroid : ℝ × ℝ := ((coords.map Prod.fst).sum / n, (coords.map Prod.snd).sum / n)
  match center_point with
  | some s =>
    if s != "" ∧ rp.hasKey s then
      let idx := rp.getKey s
      if idx < n then coords.getD idx (0, 0) else centroid
    else if s = "chest" then
      let left_shoulder_idx := rp.get "left_shoulder" 11
      let right_shoulder_idx := rp.get "right_shoulder" 12
      if left_shoulder_idx < n ∧ right_shoulder_idx < n then
        let l := coords.getD left_shoulder_idx (0, 0)
        let r := coords.getD right_shoulder_idx (0, 0)
        ((l.1 + r.1) / 2, (l.2 + r.2) / 2)
      else centroid
    else if s = "hip" then
      let left_hip_idx := rp.get "left_hip" 23
      let right_hip_idx := rp.get "right_hip" 24
      if left_hip_idx < n ∧ right_hip_idx < n then
        let l := coords.getD left_hip_idx (0, 0)
        let r := coords.getD right_hip_idx (0, 0)
        ((l.1 + r.1) / 2, (l.2 + r.2) / 2)
      else centroid
    else centroid
  | none => centroid

/-- Rotation step of `normalize_landmarks`: when both shoulder indices
are in range, rotate every point by the negative of the shoulder-line
angle (the source builds the 2x2 matrix for `-angle` and applies it as
`coords @ R.T`, giving `(x*c - y*s, x*s + y*c)` with `c = cos (-angle)`
and `s = sin (-angle)`); otherwise pass through. -/
noncomputable def rotateStep (rp : RefPoints) (coords : List (ℝ × ℝ)) : List (ℝ × ℝ) :=
  let left_shoulder_idx := rp.get "left_shoulder" 11
  let right_shoulder_idx := rp.get "right_shoulder" 12
  if left_shoulder_idx < coords.length ∧ right_shoulder_idx < coords.length then
    let left_shoulder := coords.getD left_shoulder_idx (0, 0)
    let right_shoulder := coords.getD right_shoulder_idx (0, 0)
    let shoulder_vector :=
      (right_shoulder.1 - left_shoulder.1, right_shoulder.2 - left_shoulder.2)
    let angle := atan2 shoulder_vector.2 shoulder_vector.1
    let cos_angle := Real.cos (-angle)
    let sin_angle := Real.sin (-angle)
    coords.map (fun p => (p.1 * cos_angle - p.2 * sin_angle, p.1 * sin_angle + p.2 * cos_angle))
  else coords

/-- `np.max` over a list of reals (0 on the empty list, which the source
never hits: the scaling step only evaluates it on nonempty input). -/
noncomputable def maxList : List ℝ → ℝ
  | [] => 0
  | x :: xs => xs.foldl max x

/-- `np.min` over a list of reals (0 on the empty list). -/
noncomputable def minList : List ℝ → ℝ
  | [] => 0
  | x :: xs => xs.foldl min x

/-- `np.argmax`: index of the first maximal element (0 on the empty
list). -/
noncomputable def argmaxIdx : List ℝ → ℕ
  | [] => 0
  | [_] => 0
  | x :: y :: rest => if maxList (y :: rest) ≤ x then 0 else argmaxIdx (y :: rest) + 1

/-- Scaling step of `normalize_landmarks`: determine head and foot
points (nose; lower ankle, single ankle, or the point with maximal
vertical distance from the head), and scale every coordinate by
`target_height / current_height` when the current height is positive;
without a nose index fall back to the vertical extent of all points. -/
noncomputable def scaleStep (rp : RefPoints) (target_height : ℝ)
    (coords : List (ℝ × ℝ)) : List (ℝ × ℝ) :=
  let n := coords.length
  let nose_idx := rp.get "nose" 0
  let left_ankle_idx := rp.get "left_ankle" 27
  let right_ankle_idx := rp.get "right_ankle" 28
  if nose_idx < n then
    let head_point := coords.getD nose_idx (0, 0)
    let foot_point :=
      if left_ankle_idx < n ∧ right_ankle_idx < n then
        let left_ankle := coords.getD left_ankle_idx (0, 0)
        let right_ankle := coords.getD right_ankle_idx (0, 0)
        if right_ankle.2 < left_ankle.2 then left_ankle else right_ankle
      else if left_ankle_idx < n then coords.getD left_ankle_idx (0, 0)
      else if right_ankle_idx < n then coords.getD right_ankle_idx (0, 0)
      else coords.getD (argmaxIdx (coords.map (fun p => |p.2 - head_point.2|))) (0, 0)
    let current_height := |head_point.2 - foot_point.2|
    if 0 < current_height then
      let scale_factor := target_height / current_height
      coords.map (fun p => (p.1 * scale_factor, p.2 * scale_factor))
    else coords
  else
    let y_range := maxList (coords.map Prod.snd) - minList (coords.map Prod.snd)
    if 0 < y_range then
      let scale_factor := target_height / y_range
      coords.map (fun p => (p.1 * scale_factor, p.2 * scale_factor))
    else coords

/-- `DataNormalizer.normalize_landmarks`: fewer than 2 points pass
through unchanged; otherwise center, rotate (shoulder line to
horizontal) and scale (to the target height). -/
noncomputable def normalize_landmarks (landmarks : List (ℝ × ℝ))
    (reference_points : Option RefPoints) (target_height : ℝ)
    (center_point : Option String) : List (ℝ × ℝ) :=
  if landmarks.length < 2 then landmarks
  else
    let rp := reference_points.getD defaultReferencePoints
    let center := centerOf landmarks rp center_point
    let centered_coords := landmarks.map (fun p => (p.1 - center.1, p.2 - center.2))
    scaleStep rp target_height (rotateStep rp centered_coords)

/-- Left shoulder index used by `normalize_landmarks` for the given
optional reference map. -/
def lsIdx (reference_points : Option RefPoints) : ℕ :=
  (reference_points.getD defaultReferencePoints).get "left_shoulder" 11

/-- Right shoulder index used by `normalize_landmarks` for the given
optional reference map. -/
def rsIdx (reference_points : Option RefPoints) : ℕ :=
  (reference_points.getD defaultReferencePoints).get "right_shoulder" 12

/-! Concrete fixtures used by witnesses and counterexamples. -/

/-- A calibration table with all three keys present. -/
def calW : CalibrationData := ⟨some 3, [("height", 2)], some (3 / 2)⟩

/-- A normalizer constructed without a calibration file (default
thresholds: `outlier_threshold = 2.5`, `min_confidence = 0.5`,
`min_samples = 5`). -/
def cfgNoCal : DataNormalizer := ⟨none, 5 / 2, 1 / 2, 5⟩

/-- The default normalizer with the calibration table `calW` loaded. -/
def cfgWithCal : DataNormalizer := ⟨some calW, 5 / 2, 1 / 2, 5⟩

/-- A single well-formed height measurement. -/
def pW : MeasurementPoint := ⟨0, "height", 10, 9 / 10, 2, 0, 9 / 10⟩

/-- Erases the one field the correction stages may change; two point
lists with equal images under this map agree in count, order and every
field other than `value`. -/
def erase_value (m : MeasurementPoint) : MeasurementPoint := { m with value := 0 }

/-- The default normalizer with the outlier threshold set to 1. -/
def cfgT1 : DataNormalizer := ⟨none, 1, 1 / 2, 5⟩

/-- `cfgT1` with `min_samples` lowered to 3. -/
def cfgT1low : DataNormalizer := ⟨none, 1, 1 / 2, 3⟩

/-- An extreme height observation (value 100 among zeros). -/
def pD : MeasurementPoint := ⟨3, "height", 100, 9 / 10, 2, 3, 9 / 10⟩

/-- Four height measurements whose last value is an extreme outlier
(absolute Z-score `sqrt 3 > 1`). -/
def msC1 : List MeasurementPoint :=
  [⟨0, "height", 0, 9 / 10, 2, 0, 9 / 10⟩, ⟨1, "height", 0, 9 / 10, 2, 1, 9 / 10⟩,
   ⟨2, "height", 0, 9 / 10, 2, 2, 9 / 10⟩, pD]

/-- Five height measurements with identical values (a zero-variance
group). -/
def msZ : List MeasurementPoint :=
  [⟨0, "height", 50, 9 / 10, 2, 0, 9 / 10⟩, ⟨1, "height", 50, 9 / 10, 2, 1, 9 / 10⟩,
   ⟨2, "height", 50, 9 / 10, 2, 2, 9 / 10⟩, ⟨3, "height", 50, 9 / 10, 2, 3, 9 / 10⟩,
   ⟨4, "height", 50, 9 / 10, 2, 4, 9 / 10⟩]

/-! Helper lemmas about grouping by measurement type. -/

/-- A type occurs in `keyList ms` exactly when some point of `ms` has
that type. -/
theorem keyList_mem (t : String) : ∀ ms : List MeasurementPoint,
    t ∈ keyList ms ↔ ∃ m ∈ ms, m.measurement_type = t
  | [] => by simp [keyList]
  | m :: rest => by
    simp only [keyList, List.mem_cons, List.mem_filter, bne_iff_ne, ne_eq]
    constructor
    · rintro (rfl | ⟨hmem, hne⟩)
      · exact ⟨m, Or.inl rfl, rfl⟩
      · obtain ⟨m', hm', rfl⟩ := (keyList_mem t rest).1 hmem
        exact ⟨m', Or.inr hm', rfl⟩
    · rintro ⟨m', hm' | hm', rfl⟩
      · exact Or.inl (by rw [hm'])
      · by_cases he : m'.measurement_type = m.measurement_type
        · exact Or.inl he
        · exact Or.inr ⟨(keyList_mem _ rest).2 ⟨m', hm', rfl⟩, he⟩

/-- Members of a type group carry that type. -/
theorem mem_typeGroup_type {ms : List MeasurementPoint} {t : String}
    {m : MeasurementPoint} (h : m ∈ typeGroup ms t) : m.measurement_type = t :=
  beq_iff_eq.1 (List.mem_filter.1 h).2

/-- Members of a type group are members of the input. -/
theorem mem_typeGroup_mem {ms : List MeasurementPoint} {t : String}
    {m : MeasurementPoint} (h : m ∈ typeGroup ms t) : m ∈ ms :=
  (List.mem_filter.1 h).1

/-- A point of `ms` belongs to the group of its own type. -/
theorem mem_typeGroup_self {ms : List MeasurementPoint} {m : MeasurementPoint}
    (h : m ∈ ms) : m ∈ typeGroup ms m.measurement_type :=
  List.mem_filter.2 ⟨h, by simp⟩

/-- Dropping the points of one type from the input drops exactly that
key from `keyList`. -/
theorem keyList_filter_ne (s : String) : ∀ l : List MeasurementPoint,
    keyList (l.filter (fun m => m.measurement_type != s)) =
      (keyList l).filter (fun t => t != s)
  | [] => by simp [keyList]
  | a :: l => by
    by_cases h : a.measurement_type = s
    · subst h
      rw [List.filter_cons, if_neg (by simp)]
      rw [keyList_filter_ne _ l]
      conv_rhs => rw [keyList]
      rw [List.filter_cons, if_neg (by simp), List.filter_filter]
      exact List.filter_congr
        (fun t _ => (Bool.and_self (t != a.measurement_type)).symm)
    · rw [List.filter_cons, if_pos (bne_iff_ne.2 h)]
      conv_lhs => rw [keyList]
      rw [keyList_filter_ne s l]
      conv_rhs => rw [keyList]
      rw [List.filter_cons, if_pos (bne_iff_ne.2 h)]
      rw [List.filter_comm]

/-- The group of a type not equal to the head's type ignores the head
and the head's whole group. -/
theorem typeGroup_cons_ne (a : MeasurementPoint) (l : List MeasurementPoint)
    {t : String} (hts : t ≠ a.measurement_type) :
    typeGroup (a :: l) t =
      typeGroup (l.filter (fun m => m.measurement_type != a.measurement_type)) t := by
  unfold typeGroup
  rw [List.filter_comm, List.filter_cons]
  rw [if_neg (by simp [hts.symm])]
  refine (List.filter_eq_self.2 ?_).symm
  intro m hm
  have : m.measurement_type = t := beq_iff_eq.1 (List.mem_filter.1 hm).2
  simp [this, hts]

/-- Concatenating the groups of `groupByType` permutes the input
(induction on a length bound, peeling one whole type group per step). -/
theorem flatten_groupByType_perm_aux : ∀ (n : ℕ) (ms : List MeasurementPoint),
    ms.length ≤ n → ((groupByType ms).flatMap (fun g => g.2)).Perm ms := by
  intro n
  induction n with
  | zero =>
    intro ms h
    rw [List.length_eq_zero.1 (Nat.le_zero.1 h)]
    simp [groupByType, keyList]
  | succ n ih =>
    intro ms h
    match ms with
    | [] => simp [groupByType, keyList]
    | a :: l =>
      have key : keyList (a :: l) =
          a.measurement_type ::
            keyList (l.filter (fun m => m.measurement_type != a.measurement_type)) := by
        rw [keyList_filter_ne a.measurement_type l]; rfl
      set l' := l.filter (fun m => m.measurement_type != a.measurement_type) with hl'
      rw [groupByType, key, List.map_cons, List.flatMap_cons, List.flatMap_map]
      have hgroups : (keyList l').flatMap (fun t => typeGroup (a :: l) t) =
          (groupByType l').flatMap (fun g => g.2) := by
        rw [groupByType, List.flatMap_map]
        apply List.flatMap_congr
        intro t ht
        have hts : t ≠ a.measurement_type := by
          obtain ⟨m', hm', rfl⟩ := (keyList_mem t l').1 ht
          exact bne_iff_ne.1 (List.mem_filter.1 hm').2
        exact typeGroup_cons_ne a l hts
      rw [hgroups]
      have hlen' : l'.length ≤ n :=
        le_trans (List.length_filter_le _ l) (Nat.le_of_succ_le_succ (by simpa using h))
      have hperm' := ih l' hlen'
      refine List.Perm.trans (List.Perm.append_left _ hperm') ?_
      have hneg : l' =
          List.filter (fun m => !(m.measurement_type == a.measurement_type)) (a :: l) := by
        rw [List.filter_cons, if_neg (by simp), hl']
        rfl
      rw [hneg]
      exact List.filter_append_perm (fun m => m.measurement_type == a.measurement_type) (a :: l)

/-- Concatenating the groups of `groupByType` permutes the input. -/
theorem flatten_groupByType_perm (ms : List MeasurementPoint) :
    ((groupByType ms).flatMap (fun g => g.2)).Perm ms :=
  flatten_groupByType_perm_aux ms.length ms le_rfl

/-- Every member of a group of `groupByType` carries the group's key as
its type. -/
theorem groupByType_snd_type {ms : List MeasurementPoint}
    {g : String × List MeasurementPoint} (hg : g ∈ groupByType ms) :
    ∀ m ∈ g.2, m.measurement_type = g.1 := by
  obtain ⟨t, _, rfl⟩ := List.mem_map.1 hg
  intro m hm
  exact mem_typeGroup_type hm

/-- Smoothing a group emits one point per group member. -/
theorem smoothGroup_length (t : String) (g : List MeasurementPoint) :
    (smoothGroup t g).length = g.length := by
  simp [smoothGroup, List.length_mergeSort]

/-- Every point emitted by `smoothGroup` carries the group's type. -/
theorem smoothGroup_types (t : String) (g : List MeasurementPoint) :
    ∀ m ∈ smoothGroup t g, m.measurement_type = t := by
  intro m hm
  simp only [smoothGroup, List.mem_map] at hm
  obtain ⟨i, _, rfl⟩ := hm
  rfl

/-- C7.  Temporal smoothing emits exactly one point per input point: the
output has the input's length and, for every type, as many points of
that type as the input (the same multiset of measurement types). -/
theorem apply_temporal_smoothing_count_and_types (ms : List MeasurementPoint) :
    (apply_temporal_smoothing ms).length = ms.length ∧
    ∀ τ : String,
      (apply_temporal_smoothing ms).countP (fun m => m.measurement_type == τ) =
        ms.countP (fun m => m.measurement_type == τ) := by
  unfold apply_temporal_smoothing
  split
  · exact ⟨rfl, fun τ => rfl⟩
  · have hperm := flatten_groupByType_perm ms
    constructor
    · rw [List.length_flatMap]
      have hmap : List.map
            (List.length ∘ fun g => if g.2.length < 3 then g.2 else smoothGroup g.1 g.2)
            (groupByType ms)
          = List.map (List.length ∘ fun g : String × List MeasurementPoint => g.2)
            (groupByType ms) := by
        apply List.map_congr_left
        intro g _
        simp only [Function.comp_apply]
        split
        · rfl
        · exact smoothGroup_length g.1 g.2
      rw [hmap, ← List.length_flatMap]
      exact hperm.length_eq
    · intro τ
      rw [List.countP_flatMap]
      have hmap : List.map
            (List.countP (fun m => m.measurement_type == τ) ∘
              fun g => if g.2.length < 3 then g.2 else smoothGroup g.1 g.2)
            (groupByType ms)
          = List.map
            (List.countP (fun m => m.measurement_type == τ) ∘
              fun g : String × List MeasurementPoint => g.2)
            (groupByType ms) := by
        apply List.map_congr_left
        intro g hg
        simp only [Function.comp_apply]
        split
        · rfl
        · by_cases ht : g.1 = τ
          · have h1 : (smoothGroup g.1 g.2).countP (fun m => m.measurement_type == τ)
                = (smoothGroup g.1 g.2).length :=
              List.countP_eq_length.2 (fun m hm =>
                beq_iff_eq.2 (by rw [smoothGroup_types g.1 g.2 m hm, ht]))
            have h2 : g.2.countP (fun m => m.measurement_type == τ) = g.2.length :=
              List.countP_eq_length.2 (fun m hm =>
                beq_iff_eq.2 (by rw [groupByType_snd_type hg m hm, ht]))
            rw [h1, h2, smoothGroup_length]
          · have h1 : (smoothGroup g.1 g.2).countP (fun m => m.measurement_type == τ) = 0 :=
              List.countP_eq_zero.2 (fun m hm => by
                simp [smoothGroup_types g.1 g.2 m hm, ht])
            have h2 : g.2.countP (fun m => m.measurement_type == τ) = 0 :=
              List.countP_eq_zero.2 (fun m hm => by
                simp [groupByType_snd_type hg m hm, ht])
            rw [h1, h2]
      rw [hmap, ← List.countP_flatMap]
      exact hperm.countP_eq _

/-- C1, counterexample.  The claim asserts the per-group Z-score rule
for every input list, but `remove_outliers` first returns any input
with fewer than `min_samples` points unchanged.  With threshold 1 and
the four-point group `msC1` (values 0, 0, 0, 100: mean 25, variance
1875), the outlier `pD` has `(100 - 25)^2 = 5625 > 1^2 * 1875`, i.e.
`|z| = sqrt 3 > 1`, so the claim says `pD` is removed — squaring
`|value - mean| <= threshold * std` is an equivalence here since the
threshold is nonnegative and the variance positive — yet the code keeps
it (4 < `min_samples` = 5). -/
theorem remove_outliers_claim_counterexample :
    ¬ (pD ∈ remove_outliers cfgT1 msC1 ↔
        (pD.value - qmean ((typeGroup msC1 pD.measurement_type).map MeasurementPoint.value)) ^ 2
          ≤ cfgT1.outlier_threshold ^ 2
            * qvariance ((typeGroup msC1 pD.measurement_type).map MeasurementPoint.value)) := by
  have hgroup : typeGroup msC1 pD.measurement_type = msC1 := by simp [typeGroup, msC1, pD]
  have hid : remove_outliers cfgT1 msC1 = msC1 := by
    unfold remove_outliers; rw [if_pos (by decide)]
  have hmap : msC1.map MeasurementPoint.value = [(0 : ℚ), 0, 0, 100] := by simp [msC1, pD]
  have hmean : qmean [(0 : ℚ), 0, 0, 100] = 25 := by norm_num [qmean]
  have hvar : qvariance [(0 : ℚ), 0, 0, 100] = 1875 := by norm_num [qvariance, hmean]
  rw [hid, hgroup, hmap, hmean, hvar]
  intro hiff
  have hsq := hiff.1 (by simp [msC1])
  norm_num [pD, cfgT1] at hsq

/-- C1, amended.  When the input has fewer than `min_samples` points,
`remove_outliers` returns it unchanged.  Otherwise a point is retained
iff its measurement-type group has fewer than 3 members, or the group's
variance is nonzero and `|z| <= threshold` (stated in the squared form
`0 ≤ threshold ∧ (value - mean)^2 ≤ threshold^2 * variance`, the exact
arithmetic equivalent); zero-variance groups of 3 or more are removed
entirely, because their Z-scores evaluate to NaN. -/
theorem remove_outliers_characterization (cfg : DataNormalizer) (ms : List MeasurementPoint) :
    (ms.length < cfg.min_samples → remove_outliers cfg ms = ms) ∧
    (cfg.min_samples ≤ ms.length → ∀ m,
      (m ∈ remove_outliers cfg ms ↔
        m ∈ ms ∧
          ((typeGroup ms m.measurement_type).length < 3 ∨
            (qvariance ((typeGroup ms m.measurement_type).map MeasurementPoint.value) ≠ 0 ∧
              0 ≤ cfg.outlier_threshold ∧
              (m.value
                  - qmean ((typeGroup ms m.measurement_type).map MeasurementPoint.value)) ^ 2
                ≤ cfg.outlier_threshold ^ 2
                  * qvariance ((typeGroup ms m.measurement_type).map
                      MeasurementPoint.value))))) := by
  constructor
  · intro h
    unfold remove_outliers
    rw [if_pos h]
  · intro h m
    unfold remove_outliers
    rw [if_neg (Nat.not_lt.2 h), List.mem_flatMap]
    constructor
    · rintro ⟨g, hg, hmg⟩
      obtain ⟨t, ht, rfl⟩ := List.mem_map.1 hg
      dsimp only at hmg
      by_cases hlen : (typeGroup ms t).length < 3
      · rw [if_pos hlen] at hmg
        have htype := mem_typeGroup_type hmg
        subst htype
        exact ⟨mem_typeGroup_mem hmg, Or.inl hlen⟩
      · rw [if_neg hlen] at hmg
        obtain ⟨hmg', hkeep⟩ := List.mem_filter.1 hmg
        have htype := mem_typeGroup_type hmg'
        subst htype
        unfold zscore_keep at hkeep
        by_cases hvar :
            qvariance ((typeGroup ms m.measurement_type).map MeasurementPoint.value) = 0
        · rw [if_pos hvar] at hkeep
          exact absurd hkeep (by simp)
        · rw [if_neg hvar] at hkeep
          obtain ⟨h0, hsq⟩ := of_decide_eq_true hkeep
          exact ⟨mem_typeGroup_mem hmg', Or.inr ⟨hvar, h0, hsq⟩⟩
    · rintro ⟨hmem, hcond⟩
      refine ⟨(m.measurement_type, typeGroup ms m.measurement_type), ?_, ?_⟩
      · exact List.mem_map.2 ⟨m.measurement_type, (keyList_mem _ ms).2 ⟨m, hmem, rfl⟩, rfl⟩
      · dsimp only
        by_cases hlen : (typeGroup ms m.measurement_type).length < 3
        · rw [if_pos hlen]
          exact mem_typeGroup_self hmem
        · rw [if_neg hlen]
          rcases hcond with h3 | ⟨hvar, h0, hsq⟩
          · exact absurd h3 hlen
          · refine List.mem_filter.2 ⟨mem_typeGroup_self hmem, ?_⟩
            unfold zscore_keep
            rw [if_neg hvar]
            exact decide_eq_true ⟨h0, hsq⟩

/-- C1, witness: with `min_samples` lowered to 3 the characterization
applies to the four-point group and rejects the outlier. -/
theorem remove_outliers_characterization_witness :
    (cfgT1low.min_samples ≤ msC1.length) ∧
      (pD ∈ remove_outliers cfgT1low msC1 ↔
        pD ∈ msC1 ∧
          ((typeGroup msC1 pD.measurement_type).length < 3 ∨
            (qvariance ((typeGroup msC1 pD.measurement_type).map MeasurementPoint.value) ≠ 0 ∧
              0 ≤ cfgT1low.outlier_threshold ∧
              (pD.value
                  - qmean ((typeGroup msC1 pD.measurement_type).map MeasurementPoint.value)) ^ 2
                ≤ cfgT1low.outlier_threshold ^ 2
                  * qvariance ((typeGroup msC1 pD.measurement_type).map
                      MeasurementPoint.value)))) :=
  ⟨by decide, (remove_outliers_characterization cfgT1low msC1).2 (by decide) pD⟩

/-- Sum of a constant list. -/
theorem list_sum_const (c : ℚ) : ∀ vs : List ℚ, (∀ v ∈ vs, v = c) →
    vs.sum = vs.length * c
  | [], _ => by simp
  | v :: rest, h => by
    rw [List.sum_cons, List.length_cons,
      list_sum_const c rest (fun x hx => h x (List.mem_cons_of_mem v hx)),
      h v (List.mem_cons_self v rest)]
    push_cast
    ring

/-- The mean of a nonempty constant list is the constant. -/
theorem qmean_const (c : ℚ) (vs : List ℚ) (hall : ∀ v ∈ vs, v = c) (hne : vs ≠ []) :
    qmean vs = c := by
  unfold qmean
  rw [list_sum_const c vs hall]
  have hlen : (vs.length : ℚ) ≠ 0 :=
    Nat.cast_ne_zero.2 (fun h0 => hne (List.length_eq_zero.1 h0))
  field_simp

/-- A nonempty constant list has variance 0. -/
theorem qvariance_const (c : ℚ) (vs : List ℚ) (hall : ∀ v ∈ vs, v = c) (hne : vs ≠ []) :
    qvariance vs = 0 := by
  unfold qvariance
  have hzero : vs.map (fun v => (v - qmean vs) ^ 2) = vs.map (fun _ => 0) := by
    apply List.map_congr_left
    intro v hv
    rw [hall v hv, qmean_const c vs hall hne]
    ring
  rw [hzero]
  simp

/-- C10.  On an input of at least `min_samples` points, a group of at
least 3 points whose values are all equal is removed entirely: its
variance is 0, the Z-score computation divides 0 by 0 giving NaN, and
the `NaN <= threshold` retention test is false for every member (in the
embedding, `zscore_keep` is false on zero-variance groups). -/
theorem remove_outliers_zero_variance_group (cfg : DataNormalizer)
    (ms : List MeasurementPoint) (τ : String) (c : ℚ)
    (hlen : cfg.min_samples ≤ ms.length)
    (hg : 3 ≤ (typeGroup ms τ).length)
    (heq : ∀ m ∈ typeGroup ms τ, m.value = c) :
    ∀ m ∈ remove_outliers cfg ms, m.measurement_type ≠ τ := by
  intro m hm hty
  unfold remove_outliers at hm
  rw [if_neg (Nat.not_lt.2 hlen), List.mem_flatMap] at hm
  obtain ⟨g, hgmem, hmg⟩ := hm
  obtain ⟨t, ht, rfl⟩ := List.mem_map.1 hgmem
  dsimp only at hmg
  have hmm : m ∈ typeGroup ms t := by
    by_cases h3 : (typeGroup ms t).length < 3
    · rwa [if_pos h3] at hmg
    · rw [if_neg h3] at hmg
      exact (List.mem_filter.1 hmg).1
  have hteq : t = τ := (mem_typeGroup_type hmm).symm.trans hty
  subst hteq
  rw [if_neg (Nat.not_lt.2 hg)] at hmg
  have hkeep := (List.mem_filter.1 hmg).2
  have hvals : ∀ v ∈ (typeGroup ms t).map MeasurementPoint.value, v = c := by
    intro v hv
    obtain ⟨m', hm', rfl⟩ := List.mem_map.1 hv
    exact heq m' hm'
  have hne : (typeGroup ms t).map MeasurementPoint.value ≠ [] := by
    intro h0
    have hl := congrArg List.length h0
    simp only [List.length_map, List.length_nil] at hl
    omega
  have hvar := qvariance_const c _ hvals hne
  unfold zscore_keep at hkeep
  rw [if_pos hvar] at hkeep
  exact absurd hkeep (by simp)

/-- C10, witness: five identical height measurements are all discarded. -/
theorem remove_outliers_zero_variance_group_witness :
    (cfgNoCal.min_samples ≤ msZ.length) ∧ (3 ≤ (typeGroup msZ "height").length) ∧
      (∀ m ∈ typeGroup msZ "height", m.value = 50) ∧
      (∀ m ∈ remove_outliers cfgNoCal msZ, m.measurement_type ≠ "height") :=
  ⟨by decide, by decide, by decide,
   remove_outliers_zero_variance_group cfgNoCal msZ "height" 50
     (by decide) (by decide) (by decide)⟩

/-- C9, counterexample.  The claim says a negative `min_confidence`
raises at construction time; `DataNormalizer.__init__` performs no
validation, so constructing with `min_confidence = -1` does not raise. -/
theorem mk_negative_min_confidence_not_raise :
    ¬ ∃ e, mkDataNormalizer none (5 / 2) (-1) 5 = Except.error e := by
  rintro ⟨e, h⟩
  simp [mkDataNormalizer] at h

/-- C9, amended.  Construction never raises, whatever the arguments
(the source constructor only stores them, and `load_calibration_data`
catches every exception); in particular a negative `min_confidence` is
accepted silently rather than failing fast. -/
theorem mk_data_normalizer_never_raises (calibration_data : Option CalibrationData)
    (outlier_threshold min_confidence : ℚ) (min_samples : ℕ) :
    mkDataNormalizer calibration_data outlier_threshold min_confidence min_samples =
      Except.ok ⟨calibration_data, outlier_threshold, min_confidence, min_samples⟩ := rfl

/-- C6.  With no calibration table loaded, depth correction passes the
input through unchanged; with a table, each point's value is multiplied
by `reference_depth / depth` (reference depth defaulting to 2.0) and
nothing else changes. -/
theorem apply_depth_correction_spec (cfg : DataNormalizer)
    (measurements : List MeasurementPoint) :
    (cfg.calibration_data = none → apply_depth_correction cfg measurements = measurements) ∧
    (∀ cal, cfg.calibration_data = some cal →
      apply_depth_correction cfg measurements =
        measurements.map (fun m =>
          { m with value := m.value * ((cal.reference_depth.getD 2) / m.depth) })) := by
  constructor
  · intro h; unfold apply_depth_correction; rw [h]
  · intro cal h; unfold apply_depth_correction; rw [h]

/-- C6, witness: the pass-through and the scaling case at concrete
inputs. -/
theorem apply_depth_correction_spec_witness :
    apply_depth_correction cfgNoCal [pW] = [pW] ∧
    apply_depth_correction cfgWithCal [pW] =
      [pW].map (fun m =>
        { m with value := m.value * ((calW.reference_depth.getD 2) / m.depth) }) :=
  ⟨(apply_depth_correction_spec cfgNoCal [pW]).1 rfl,
   (apply_depth_correction_spec cfgWithCal [pW]).2 calW rfl⟩

/-- C8.  Depth correction and calibration scaling preserve the point
count and order, and leave every field other than `value` (timestamp,
type, confidence, depth, frame id, landmarks quality) unchanged. -/
theorem corrections_preserve_count_order_fields (cfg : DataNormalizer)
    (measurements : List MeasurementPoint) :
    (apply_depth_correction cfg measurements).length = measurements.length ∧
    (apply_calibration_scaling cfg measurements).length = measurements.length ∧
    (apply_depth_correction cfg measurements).map erase_value = measurements.map erase_value ∧
    (apply_calibration_scaling cfg measurements).map erase_value =
      measurements.map erase_value := by
  unfold apply_depth_correction apply_calibration_scaling
  cases cfg.calibration_data with
  | none => exact ⟨rfl, rfl, rfl, rfl⟩
  | some cal =>
    refine ⟨by simp, by simp, ?_, ?_⟩ <;> rw [List.map_map] <;> rfl

/-- C3.  For a non-empty input, the quality score lies in [0, 10]: the
source clamps the weighted average with `min(10.0, max(0.0, _))`. -/
theorem calculate_quality_score_bounds (measurements : List MeasurementPoint)
    (h : measurements ≠ []) :
    0 ≤ calculate_quality_score measurements ∧ calculate_quality_score measurements ≤ 10 := by
  unfold calculate_quality_score
  rw [if_neg (by simpa [List.isEmpty_iff] using h)]
  exact ⟨le_min (by norm_num) (le_max_left 0 _), min_le_left 10 _⟩

/-- C3, witness at a one-point input. -/
theorem calculate_quality_score_bounds_witness :
    ([pW] : List MeasurementPoint) ≠ [] ∧
      (0 ≤ calculate_quality_score [pW] ∧ calculate_quality_score [pW] ≤ 10) :=
  ⟨by simp, calculate_quality_score_bounds [pW] (by simp)⟩

/-- C5.  With fewer than 2 landmarks, `normalize_landmarks` returns its
input unchanged; the embedding is a total function (the source has no
raise path for natural-number schema indices: every index access is
guarded by a bounds check and every division by a positivity check). -/
theorem normalize_landmarks_short_input (landmarks : List (ℝ × ℝ))
    (reference_points : Option RefPoints) (target_height : ℝ) (center_point : Option String)
    (h : landmarks.length < 2) :
    normalize_landmarks landmarks reference_points target_height center_point = landmarks := by
  unfold normalize_landmarks
  rw [if_pos h]

/-- C5, witness at a one-point landmark list. -/
theorem normalize_landmarks_short_input_witness :
    ([((5 : ℝ), (7 : ℝ))].length < 2) ∧
      normalize_landmarks [((5 : ℝ), (7 : ℝ))] none 1 none = [((5 : ℝ), (7 : ℝ))] :=
  ⟨by simp, normalize_landmarks_short_input _ none 1 none (by simp)⟩

/-- C2.  `process_measurements` is exactly the composition of the stage
functions in the fixed order: confidence filter, outlier removal,
temporal smoothing, depth correction, calibration scaling, profile
build, validation, quality score — both the returned profile and every
field of the report. -/
theorem process_measurements_is_stage_composition (cfg : DataNormalizer) (now : ℚ)
    (measurements : List MeasurementPoint) (user_id : String) :
    process_measurements cfg now measurements user_id =
      (let filtered := filter_by_confidence cfg measurements
       let cleaned := remove_outliers cfg filtered
       let smoothed := apply_temporal_smoothing cleaned
       let depth_corrected := apply_depth_correction cfg smoothed
       let scaled := apply_calibration_scaling cfg depth_corrected
       (create_body_profile cfg now scaled user_id,
        { initial_count := measurements.length
          final_count := scaled.length
          processing_steps :=
            ["Step 1 - Confidence filter: " ++ toString filtered.length ++ "/"
               ++ toString measurements.length ++ " retained",
             "Step 2 - Outlier removal: " ++ toString cleaned.length ++ "/"
               ++ toString measurements.length ++ " retained",
             "Step 3 - Temporal smoothing applied",
             "Step 4 - Depth correction applied",
             "Step 5 - Calibration scaling applied",
             if (validate_measurements cfg scaled).1 then "Step 6 - Validation: PASSED"
             else "Step 6 - Validation: FAILED"]
          quality_score := calculate_quality_score scaled
          issues := (validate_measurements cfg scaled).2 })) := rfl

/-- getD of a mapped list at an in-range index. -/
theorem getD_map_of_lt {α β : Type} (f : α → β) (d : β) (d2 : α) :
    ∀ (l : List α) (i : ℕ), i < l.length → (l.map f).getD i d = f (l.getD i d2)
  | [], i, h => absurd h (by simp)
  | a :: l, 0, _ => rfl
  | a :: l, i + 1, h =>
    getD_map_of_lt f d d2 l i (Nat.lt_of_succ_lt_succ (by simpa using h))

/-- Rotating by the negative of a vector's own angle zeroes the
y-component: the algebraic core of the shoulder alignment. -/
theorem rot_cancel (dx dy : ℝ) :
    dx * Real.sin (-(atan2 dy dx)) + dy * Real.cos (-(atan2 dy dx)) = 0 := by
  rw [Real.sin_neg, Real.cos_neg]
  unfold atan2
  by_cases hz : (⟨dx, dy⟩ : ℂ) = 0
  · have hdx : dx = 0 := by simpa using congrArg Complex.re hz
    have hdy : dy = 0 := by simpa using congrArg Complex.im hz
    simp [hdx, hdy]
  · rw [Complex.sin_arg, Complex.cos_arg hz]
    show dx * -(dy / Complex.abs ⟨dx, dy⟩) + dy * (dx / Complex.abs ⟨dx, dy⟩) = 0
    ring

/-- The rotation step preserves the number of points. -/
theorem rotateStep_length (rp : RefPoints) (l : List (ℝ × ℝ)) :
    (rotateStep rp l).length = l.length := by
  simp only [rotateStep]
  split <;> simp

/-- After the rotation step, the left and right shoulder points have
equal y-coordinates. -/
theorem rotateStep_shoulders (rp : RefPoints) (l : List (ℝ × ℝ))
    (hL : rp.get "left_shoulder" 11 < l.length)
    (hR : rp.get "right_shoulder" 12 < l.length) :
    ((rotateStep rp l).getD (rp.get "right_shoulder" 12) (0, 0)).2
      - ((rotateStep rp l).getD (rp.get "left_shoulder" 11) (0, 0)).2 = 0 := by
  simp only [rotateStep]
  rw [if_pos ⟨hL, hR⟩]
  rw [getD_map_of_lt _ (0, 0) (0, 0) l _ hR, getD_map_of_lt _ (0, 0) (0, 0) l _ hL]
  dsimp only
  linear_combination rot_cancel
    ((l.getD (rp.get "right_shoulder" 12) (0, 0)).1 - (l.getD (rp.get "left_shoulder" 11) (0, 0)).1)
    ((l.getD (rp.get "right_shoulder" 12) (0, 0)).2 - (l.getD (rp.get "left_shoulder" 11) (0, 0)).2)

/-- The scaling step is either the identity or a uniform scalar
multiplication of both coordinates. -/
theorem scaleStep_eq_or_smul (rp : RefPoints) (th : ℝ) (l : List (ℝ × ℝ)) :
    scaleStep rp th l = l ∨
      ∃ k : ℝ, scaleStep rp th l = l.map (fun p => (p.1 * k, p.2 * k)) := by
  simp only [scaleStep]
  split_ifs <;> first
    | exact Or.inl rfl
    | exact Or.inr ⟨_, rfl⟩

/-- After rotation then scaling, the shoulder y-coordinates still
agree. -/
theorem scale_rotate_shoulders (rp : RefPoints) (th : ℝ) (l : List (ℝ × ℝ))
    (hL : rp.get "left_shoulder" 11 < l.length)
    (hR : rp.get "right_shoulder" 12 < l.length) :
    ((scaleStep rp th (rotateStep rp l)).getD (rp.get "right_shoulder" 12) (0, 0)).2
      - ((scaleStep rp th (rotateStep rp l)).getD (rp.get "left_shoulder" 11) (0, 0)).2 = 0 := by
  have hrotlen : (rotateStep rp l).length = l.length := rotateStep_length rp l
  have hrot := rotateStep_shoulders rp l hL hR
  rcases scaleStep_eq_or_smul rp th (rotateStep rp l) with hs | ⟨k, hs⟩
  · rw [hs]; exact hrot
  · rw [hs]
    rw [getD_map_of_lt _ (0, 0) (0, 0) _ _ (by rw [hrotlen]; exact hR),
        getD_map_of_lt _ (0, 0) (0, 0) _ _ (by rw [hrotlen]; exact hL)]
    dsimp only
    linear_combination k * hrot

/-- C4.  With both shoulder indices in range (on at least 2 points),
the output of `normalize_landmarks` has a horizontal shoulder line: the
y-component of the vector from the left to the right shoulder point is
zero, because every point is rotated by the negative of the measured
shoulder angle and then only scaled uniformly. -/
theorem normalize_landmarks_shoulder_horizontal (landmarks : List (ℝ × ℝ))
    (reference_points : Option RefPoints) (target_height : ℝ) (center_point : Option String)
    (h2 : 2 ≤ landmarks.length)
    (hL : lsIdx reference_points < landmarks.length)
    (hR : rsIdx reference_points < landmarks.length) :
    ((normalize_landmarks landmarks reference_points target_height center_point).getD
        (rsIdx reference_points) (0, 0)).2
      - ((normalize_landmarks landmarks reference_points target_height center_point).getD
          (lsIdx reference_points) (0, 0)).2 = 0 := by
  simp only [normalize_landmarks, lsIdx, rsIdx] at hL hR ⊢
  rw [if_neg (Nat.not_lt.2 h2)]
  exact scale_rotate_shoulders _ target_height _
    (by simpa using hL) (by simpa using hR)

/-- Reference map for the C4 witness: the two points are the two
shoulders. -/
def rpW : RefPoints := ⟨[("left_shoulder", 0), ("right_shoulder", 1)]⟩

/-- Landmark list for the C4 witness. -/
def lmW : List (ℝ × ℝ) := [(0, 0), (1, 0)]

/-- C4, witness at a two-point landmark set. -/
theorem normalize_landmarks_shoulder_horizontal_witness :
    (2 ≤ lmW.length) ∧ (lsIdx (some rpW) < lmW.length) ∧ (rsIdx (some rpW) < lmW.length) ∧
      (((normalize_landmarks lmW (some rpW) 1 none).getD (rsIdx (some rpW)) (0, 0)).2
          - ((normalize_landmarks lmW (some rpW) 1 none).getD (lsIdx (some rpW)) (0, 0)).2
        = 0) :=
  ⟨by decide, by decide, by decide,
   normalize_landmarks_shoulder_horizontal lmW (some rpW) 1 none
     (by decide) (by decide) (by decide)⟩

end ErgoScan
